import Mathlib

/-!
Verification of the feeder registry in
`src/agent/AgentGridWatch/agent_grid_watch/agent.py`.

The program keeps a process-wide dictionary `_memory : Dict[str, dict]`
(actually string keys to arbitrary JSON-decodable values, since the map is
loaded from a JSON file) and four registry operations over it:
`register_feeder`, `get_registered_feeders`, `get_feeder_health`,
`get_feeder_alerts`.  We embed the store as an association list with Python
dict semantics (first-match lookup, in-place update for a present key,
append for a fresh key) and the operations as state-passing functions that
return either an API result dictionary (status success/error) or a raised
Python exception, mirroring the dynamic-type errors the source can hit on
degenerate store contents.  File I/O (`_load_memory`, `_save_memory`) does
not change the in-memory map, so the two `_save_memory()` calls are no-ops
in this embedding.
-/

namespace GridWatch

/-- A JSON-decodable Python value, the value type of `_memory`.
`null` doubles as Python `None`.  JSON numbers are modelled as integers;
no claim depends on fractional values. -/
inductive JValue where
  | null : JValue
  | bool : Bool → JValue
  | str : String → JValue
  | int : Int → JValue
  | arr : List JValue → JValue
  | obj : List (String × JValue) → JValue

/-- Python exceptions the operations can raise. -/
inductive PyErr where
  | keyError : String → PyErr
  | typeError : PyErr
  | attributeError : PyErr
  deriving DecidableEq

/-- The uniform result dictionary of every operation:
`{"status": "success", "report": ...}` or
`{"status": "error", "error_message": ...}`. -/
inductive ApiResult where
  | ok : JValue → ApiResult
  | err : String → ApiResult

/-- The in-memory store `_memory`, a Python dict from string keys to values,
as an association list in insertion order. -/
def Store : Type := List (String × JValue)

namespace Store

/-- The empty dict (fresh `_memory`). -/
def empty : Store := []

/-- First-match lookup, `_memory[k]` when present. -/
def lookup : Store → String → Option JValue
  | [], _ => none
  | (k', v) :: rest, k => if k' = k then some v else lookup rest k

/-- Python `k in _memory`. -/
def hasKey (st : Store) (k : String) : Bool := (st.lookup k).isSome

/-- Python `_memory.get(k)`: the stored value, or `None` when the key is
absent.  A stored JSON `null` and an absent key are indistinguishable to
`.get`, exactly as in the source. -/
def pyGet (st : Store) (k : String) : JValue := (st.lookup k).getD .null

/-- Python `_memory[k] = v`: replace the value of a present key in place,
append a fresh key at the end. -/
def set : Store → String → JValue → Store
  | [], k, v => [(k, v)]
  | (k', v') :: rest, k, v =>
    if k' = k then (k, v) :: rest else (k', v') :: set rest k v

/-- Number of entries carrying key `k` (1 at most for a genuine dict). -/
def countKey (st : Store) (k : String) : Nat :=
  (st.filter (fun e => e.1 = k)).length

end Store

/-- A one-character string holding the ASCII single-quote (code 39). -/
def squote : String := String.singleton (Char.ofNat 39)

/-- Python truthiness of a JSON-decoded value (`if feeder_data:`). -/
def truthy : JValue → Bool
  | .null => false
  | .bool b => b
  | .str s => !s.isEmpty
  | .int n => n != 0
  | .arr xs => !xs.isEmpty
  | .obj kvs => !kvs.isEmpty

mutual

/-- Python `repr()` of a JSON-decoded value, used by f-string formatting of
containers.  String escaping inside `repr` is not modelled (no claim ever
formats a string containing quotes). -/
def pyRepr : JValue → String
  | .null => "None"
  | .bool true => "True"
  | .bool false => "False"
  | .str s => squote ++ s ++ squote
  | .int n => toString n
  | .arr xs => "[" ++ pyReprSeq xs ++ "]"
  | .obj kvs => "\x7b" ++ pyReprItems kvs ++ "\x7d"

/-- Comma-separated `repr`s of the elements of a list. -/
def pyReprSeq : List JValue → String
  | [] => ""
  | [v] => pyRepr v
  | v :: w :: rest => pyRepr v ++ ", " ++ pyReprSeq (w :: rest)

/-- Comma-separated `repr`s of the items of a dict. -/
def pyReprItems : List (String × JValue) → String
  | [] => ""
  | [(k, v)] => squote ++ k ++ squote ++ ": " ++ pyRepr v
  | (k, v) :: e :: rest =>
    squote ++ k ++ squote ++ ": " ++ pyRepr v ++ ", " ++ pyReprItems (e :: rest)

end

/-- Python `str()` of a JSON-decoded value, as applied by the f-string in
`_get_feeder_memory_key` when the argument is not a string. -/
def pyStr : JValue → String
  | .str s => s
  | v => pyRepr v

/-- Python `for x in v`: lists yield elements, strings yield their
characters as one-character strings, dicts yield their keys; other values
raise `TypeError`. -/
def pyIter : JValue → Except PyErr (List JValue)
  | .arr xs => .ok xs
  | .str s => .ok (s.data.map (fun c => .str (String.singleton c)))
  | .obj kvs => .ok (kvs.map (fun kv => .str kv.1))
  | _ => .error .typeError

/-- Embeds `_get_feeder_memory_key(feeder_id)`: the key `feeder:<id>`. -/
def get_feeder_memory_key (feeder_id : String) : String :=
  "feeder:" ++ feeder_id

/-- Embeds `_get_all_feeders_key()`: the index key `all_feeders`. -/
def get_all_feeders_key : String := "all_feeders"

/-- The `Feeder` class: four attributes, set by `__init__`.  The attributes
are dynamically typed in the source, so they are plain values here;
`configuration = None` is `JValue.null`. -/
structure Feeder where
  feeder_id : JValue
  name : JValue
  location : JValue
  configuration : JValue

/-- Embeds `Feeder.to_dict`: the plain dictionary of the four attributes, in the
order written in the source. -/
def Feeder.to_dict (f : Feeder) : JValue :=
  .obj [("feeder_id", f.feeder_id), ("name", f.name),
        ("location", f.location), ("configuration", f.configuration)]

/-- Embeds `Feeder.from_dict(data)`: rebuilds a `Feeder` from a dictionary.
Subscripting a non-dict raises `TypeError`; a missing required key raises
`KeyError` (first missing key wins, in source order); `configuration` uses
`data.get`, so it defaults to `None` when absent. -/
def Feeder.from_dict : JValue → Except PyErr Feeder
  | .obj data =>
    match Store.lookup data "feeder_id" with
    | none => .error (.keyError "feeder_id")
    | some fid =>
      match Store.lookup data "name" with
      | none => .error (.keyError "name")
      | some nm =>
        match Store.lookup data "location" with
        | none => .error (.keyError "location")
        | some loc =>
          .ok ⟨fid, nm, loc, (Store.lookup data "configuration").getD .null⟩
  | _ => .error .typeError

/-- Error message of `register_feeder` on a duplicate id. -/
def existsMsg (feeder_id : String) : String :=
  "Feeder ID " ++ squote ++ feeder_id ++ squote ++ " already exists."

/-- Error message of `get_feeder_health` / `get_feeder_alerts` on an
unknown id. -/
def notFoundMsg (feeder_id : String) : String :=
  "Feeder ID " ++ squote ++ feeder_id ++ squote ++ " not found."

/-- Embeds `register_feeder`: reject when `feeder:<id>` is already a key;
otherwise write the record (first `_save_memory()`), then append the id to
the `all_feeders` list (`.get` treats a stored `null` like an absent key;
`.append` on a non-list raises `AttributeError`, after the record write)
and save again. -/
def register_feeder (feeder_id feeder_name feeder_location : String)
    (configuration : JValue) (st : Store) : Except PyErr ApiResult × Store :=
  let memory_key := get_feeder_memory_key feeder_id
  if st.hasKey memory_key then
    (.ok (.err (existsMsg feeder_id)), st)
  else
    let feeder : Feeder :=
      ⟨.str feeder_id, .str feeder_name, .str feeder_location, configuration⟩
    let st1 := st.set memory_key feeder.to_dict
    match st1.pyGet get_all_feeders_key with
    | .null =>
      (.ok (.ok feeder.to_dict),
       st1.set get_all_feeders_key (.arr [.str feeder_id]))
    | .arr ids =>
      (.ok (.ok feeder.to_dict),
       st1.set get_all_feeders_key (.arr (ids ++ [.str feeder_id])))
    | _ => (.error .attributeError, st1)

/-- The `for feeder_id in all_feeder_ids` loop of `get_registered_feeders`:
skip falsy (absent) records, decode the rest, collect `to_dict`s. -/
def listLoop (st : Store) : List JValue → Except PyErr (List JValue)
  | [] => .ok []
  | v :: rest =>
    let feeder_data := st.pyGet (get_feeder_memory_key (pyStr v))
    if truthy feeder_data then
      match Feeder.from_dict feeder_data with
      | .ok f =>
        match listLoop st rest with
        | .ok tail => .ok (f.to_dict :: tail)
        | .error e => .error e
      | .error e => .error e
    else
      listLoop st rest

/-- Embeds `get_registered_feeders`: `None` index (absent or stored `null`) gives
`success []`; otherwise iterate the index value and collect the decoded
records of truthy entries. -/
def get_registered_feeders (st : Store) : Except PyErr ApiResult × Store :=
  match st.pyGet get_all_feeders_key with
  | .null => (.ok (.ok (.arr [])), st)
  | v =>
    match pyIter v with
    | .error e => (.error e, st)
    | .ok items =>
      match listLoop st items with
      | .ok feeders => (.ok (.ok (.arr feeders)), st)
      | .error e => (.error e, st)

/-- Embeds `get_feeder_health`: not-found error when `feeder:<id>` is not a key,
else the placeholder report string. -/
def get_feeder_health (feeder_id : String) (st : Store) :
    Except PyErr ApiResult × Store :=
  let memory_key := get_feeder_memory_key feeder_id
  if st.hasKey memory_key then
    (.ok (.ok (.str "Operational and healthy.")), st)
  else
    (.ok (.err (notFoundMsg feeder_id)), st)

/-- Embeds `get_feeder_alerts`: not-found error when `feeder:<id>` is not a key,
else the value of `alerts:<id>` with `None` (absent or stored `null`)
replaced by the empty list. -/
def get_feeder_alerts (feeder_id : String) (st : Store) :
    Except PyErr ApiResult × Store :=
  let memory_key := get_feeder_memory_key feeder_id
  if st.hasKey memory_key then
    match st.pyGet ("alerts:" ++ feeder_id) with
    | .null => (.ok (.ok (.arr [])), st)
    | alerts => (.ok (.ok alerts), st)
  else
    (.ok (.err (notFoundMsg feeder_id)), st)

/-! ## Derived predicates used in the statements -/

/-- The record a loop entry `v` of the index contributes to the report of
`get_registered_feeders`: `none` when the record is falsy or fails to
decode, otherwise the re-encoded decoded feeder. -/
def entryOut (st : Store) (v : JValue) : Option JValue :=
  let r := st.pyGet (get_feeder_memory_key (pyStr v))
  if truthy r then
    match Feeder.from_dict r with
    | .ok f => some f.to_dict
    | .error _ => none
  else none

/-- An index entry the listing loop can process without raising: its record
is falsy (in particular absent), or decodes as a feeder. -/
def goodEntry (st : Store) (v : JValue) : Bool :=
  let r := st.pyGet (get_feeder_memory_key (pyStr v))
  !truthy r ||
    (match Feeder.from_dict r with
     | .ok _ => true
     | .error _ => false)

/-- A store whose `all_feeders` value fits the documented data model well
enough for the registry operations not to raise: absent, `null`, or a list
of processable entries. -/
def wfStore (st : Store) : Bool :=
  match st.pyGet get_all_feeders_key with
  | .null => true
  | .arr ids => ids.all (goodEntry st)
  | _ => false

/-! ## Store and key lemmas -/

theorem feeder_key_ne_all (s : String) :
    get_feeder_memory_key s ≠ get_all_feeders_key := by
  intro h
  have h2 := congrArg String.data h
  rw [show get_feeder_memory_key s = "feeder:" ++ s from rfl,
    String.data_append] at h2
  have h3 := congrArg List.head? h2
  have e1 : ("feeder:".data ++ s.data).head? = some (Char.ofNat 102) := rfl
  have e2 : get_all_feeders_key.data.head? = some (Char.ofNat 97) := rfl
  rw [e1, e2] at h3
  exact absurd h3 (by decide)

theorem feeder_key_inj {a b : String}
    (h : get_feeder_memory_key a = get_feeder_memory_key b) : a = b := by
  have h2 := congrArg String.data h
  rw [show get_feeder_memory_key a = "feeder:" ++ a from rfl,
    show get_feeder_memory_key b = "feeder:" ++ b from rfl,
    String.data_append, String.data_append] at h2
  exact String.ext (List.append_cancel_left h2)

namespace Store

theorem lookup_set_self (st : Store) (k : String) (v : JValue) :
    (st.set k v).lookup k = some v := by
  induction st with
  | nil => simp [set, lookup]
  | cons e rest ih =>
    by_cases h : e.1 = k <;> simp [set, lookup, h, ih]

theorem lookup_set_ne (st : Store) {k k' : String} (v : JValue)
    (h : k' ≠ k) : (st.set k v).lookup k' = st.lookup k' := by
  induction st with
  | nil => simp [set, lookup, Ne.symm h]
  | cons e rest ih =>
    by_cases h2 : e.1 = k
    · simp [set, lookup, h2, Ne.symm h, h]
    · simp [set, lookup, h2, ih]

theorem pyGet_set_self (st : Store) (k : String) (v : JValue) :
    (st.set k v).pyGet k = v := by
  simp [pyGet, lookup_set_self]

theorem pyGet_set_ne (st : Store) {k k' : String} (v : JValue)
    (h : k' ≠ k) : (st.set k v).pyGet k' = st.pyGet k' := by
  simp [pyGet, lookup_set_ne st v h]

theorem hasKey_set (st : Store) (k k' : String) (v : JValue) :
    (st.set k v).hasKey k' = (if k' = k then true else st.hasKey k') := by
  by_cases h : k' = k
  · simp [hasKey, h, lookup_set_self]
  · simp [hasKey, h, lookup_set_ne st v h]

theorem countKey_eq_zero_of_not_hasKey {st : Store} {k : String}
    (h : st.hasKey k = false) : st.countKey k = 0 := by
  induction st with
  | nil => rfl
  | cons e rest ih =>
    by_cases h2 : e.1 = k
    · simp [hasKey, lookup, h2] at h
    · simp [hasKey, lookup, h2] at h
      simp [countKey, List.filter, h2] at ih ⊢
      exact ih (by simpa [hasKey] using h)

theorem countKey_set_of_not_hasKey {st : Store} {k : String} (v : JValue)
    (h : st.hasKey k = false) : (st.set k v).countKey k = 1 := by
  induction st with
  | nil => simp [set, countKey, List.filter]
  | cons e rest ih =>
    by_cases h2 : e.1 = k
    · simp [hasKey, lookup, h2] at h
    · simp [hasKey, lookup, h2] at h
      simp [set, h2, countKey, List.filter] at ih ⊢
      exact ih (by simpa [hasKey] using h)

theorem countKey_set_ne (st : Store) {k k' : String} (v : JValue)
    (h : k ≠ k') : (st.set k' v).countKey k = st.countKey k := by
  induction st with
  | nil => simp [set, countKey, List.filter, Ne.symm h]
  | cons e rest ih =>
    by_cases h2 : e.1 = k'
    · simp [set, countKey, List.filter, h2, Ne.symm h]
    · simp [set, countKey, List.filter, h2] at ih ⊢
      by_cases h3 : e.1 = k <;> simp [h3, ih]

end Store

/-! ## Codec lemmas -/

theorem from_dict_to_dict (f : Feeder) :
    Feeder.from_dict f.to_dict = .ok f := rfl

theorem truthy_to_dict (f : Feeder) : truthy f.to_dict = true := rfl

/-! ## Listing-loop characterization -/

theorem listLoop_eq_filterMap (st : Store) (ids : List JValue)
    (h : ∀ v ∈ ids, goodEntry st v = true) :
    listLoop st ids = .ok (ids.filterMap (entryOut st)) := by
  induction ids with
  | nil => rfl
  | cons v rest ih =>
    have hv := h v (List.mem_cons_self v rest)
    have hrest := ih (fun w hw => h w (List.mem_cons_of_mem v hw))
    by_cases ht : truthy (st.pyGet (get_feeder_memory_key (pyStr v))) = true
    · simp only [goodEntry, ht, Bool.not_true, Bool.false_or] at hv
      cases hd : Feeder.from_dict (st.pyGet (get_feeder_memory_key (pyStr v))) with
      | ok f =>
        simp [listLoop, entryOut, ht, hd, hrest]
      | error e => simp [hd] at hv
    · simp only [Bool.not_eq_true] at ht
      simp [listLoop, entryOut, ht, hrest]

theorem goodEntry_congr {st st' : Store} {v : JValue}
    (h : st'.pyGet (get_feeder_memory_key (pyStr v)) =
      st.pyGet (get_feeder_memory_key (pyStr v))) :
    goodEntry st' v = goodEntry st v := by
  simp [goodEntry, h]

theorem lookup_of_pyGet_arr {st : Store} {k : String} {ids : List JValue}
    (h : st.pyGet k = .arr ids) : st.lookup k = some (.arr ids) := by
  cases hl : st.lookup k with
  | none => rw [Store.pyGet, hl] at h; exact absurd h (by simp)
  | some w => rw [Store.pyGet, hl] at h; rw [Option.getD_some] at h; rw [h]

/-! ## Operation shape lemmas -/

theorem get_registered_feeders_snd (st : Store) :
    (get_registered_feeders st).2 = st := by
  unfold get_registered_feeders
  split
  · rfl
  · split
    · rfl
    · split <;> rfl

theorem get_feeder_health_snd (st : Store) (fid : String) :
    (get_feeder_health fid st).2 = st := by
  unfold get_feeder_health
  by_cases h : st.hasKey (get_feeder_memory_key fid) = true <;> simp [h]

theorem get_feeder_alerts_snd (st : Store) (fid : String) :
    (get_feeder_alerts fid st).2 = st := by
  unfold get_feeder_alerts
  by_cases h : st.hasKey (get_feeder_memory_key fid) = true
  · simp only [h, if_true]
    split <;> rfl
  · simp [h]

theorem register_feeder_duplicate (st : Store) (fid n l : String) (c : JValue)
    (h : st.hasKey (get_feeder_memory_key fid) = true) :
    register_feeder fid n l c st = (.ok (.err (existsMsg fid)), st) := by
  unfold register_feeder
  simp [h]

/-- Case analysis of `register_feeder` on a fresh id: the index was
absent/null, or a list, or some other value (record written, then
`AttributeError`). -/
theorem register_feeder_cases (st : Store) (fid n l : String) (c : JValue)
    (h : st.hasKey (get_feeder_memory_key fid) = false) :
    (st.pyGet get_all_feeders_key = .null ∧
      register_feeder fid n l c st =
        (.ok (.ok (Feeder.to_dict ⟨.str fid, .str n, .str l, c⟩)),
         (st.set (get_feeder_memory_key fid)
            (Feeder.to_dict ⟨.str fid, .str n, .str l, c⟩)).set
           get_all_feeders_key (.arr [.str fid]))) ∨
    (∃ ids, st.pyGet get_all_feeders_key = .arr ids ∧
      register_feeder fid n l c st =
        (.ok (.ok (Feeder.to_dict ⟨.str fid, .str n, .str l, c⟩)),
         (st.set (get_feeder_memory_key fid)
            (Feeder.to_dict ⟨.str fid, .str n, .str l, c⟩)).set
           get_all_feeders_key (.arr (ids ++ [.str fid])))) ∨
    ((st.pyGet get_all_feeders_key ≠ .null ∧
        ∀ ids, st.pyGet get_all_feeders_key ≠ .arr ids) ∧
      register_feeder fid n l c st =
        (.error .attributeError,
         st.set (get_feeder_memory_key fid)
           (Feeder.to_dict ⟨.str fid, .str n, .str l, c⟩))) := by
  have hget : (st.set (get_feeder_memory_key fid)
      (Feeder.to_dict ⟨.str fid, .str n, .str l, c⟩)).pyGet
        get_all_feeders_key = st.pyGet get_all_feeders_key :=
    Store.pyGet_set_ne st _ (Ne.symm (feeder_key_ne_all fid))
  unfold register_feeder
  cases hv : st.pyGet get_all_feeders_key <;>
    simp [h, hget, hv]

/-! ## Claims -/

/-- Claim C2: when the key `feeder:<id>` already exists, `register_feeder`
returns the error result with message `Feeder ID <id> already exists.`
(single-quoted in the source) and leaves the store untouched; consequently
registering the same id twice yields the error on the second call and the
store holds exactly one entry under `feeder:<id>`. -/
theorem claim2_duplicate_rejected_no_write :
    (∀ (st : Store) (fid n l : String) (c : JValue),
      st.hasKey (get_feeder_memory_key fid) = true →
      register_feeder fid n l c st = (.ok (.err (existsMsg fid)), st)) ∧
    (∀ (st : Store) (fid n l n2 l2 : String) (c c2 : JValue),
      st.hasKey (get_feeder_memory_key fid) = false →
      register_feeder fid n2 l2 c2 (register_feeder fid n l c st).2 =
        (.ok (.err (existsMsg fid)), (register_feeder fid n l c st).2) ∧
      (register_feeder fid n l c st).2.countKey
        (get_feeder_memory_key fid) = 1) := by
  constructor
  · intro st fid n l c h
    exact register_feeder_duplicate st fid n l c h
  · intro st fid n l n2 l2 c c2 h
    have hcount0 := Store.countKey_set_of_not_hasKey
      (Feeder.to_dict ⟨.str fid, .str n, .str l, c⟩) h
    have hkey : ∀ x : JValue,
        ((st.set (get_feeder_memory_key fid)
            (Feeder.to_dict ⟨.str fid, .str n, .str l, c⟩)).set
          get_all_feeders_key x).countKey (get_feeder_memory_key fid) = 1 := by
      intro x
      rw [Store.countKey_set_ne _ x (feeder_key_ne_all fid)]
      exact hcount0
    have hhas : ∀ x : JValue,
        ((st.set (get_feeder_memory_key fid)
            (Feeder.to_dict ⟨.str fid, .str n, .str l, c⟩)).set
          get_all_feeders_key x).hasKey (get_feeder_memory_key fid) = true := by
      intro x
      rw [Store.hasKey_set, if_neg (feeder_key_ne_all fid)]
      simp [Store.hasKey, Store.lookup_set_self]
    have hhas0 : (st.set (get_feeder_memory_key fid)
        (Feeder.to_dict ⟨.str fid, .str n, .str l, c⟩)).hasKey
          (get_feeder_memory_key fid) = true := by
      simp [Store.hasKey, Store.lookup_set_self]
    rcases register_feeder_cases st fid n l c h with
      ⟨_, heq⟩ | ⟨ids, _, heq⟩ | ⟨_, heq⟩ <;>
      rw [heq] <;>
      exact ⟨register_feeder_duplicate _ fid n2 l2 c2 (by first | exact hhas _ | exact hhas0),
        by first | exact hkey _ | exact hcount0⟩

/-- Witness for C2 at a concrete input: a store already holding
`feeder:f1`, and the empty store registered twice. -/
theorem claim2_witness :
    register_feeder "f1" "N2" "L2" .null
        [("feeder:f1", JValue.obj [])] =
      (.ok (.err (existsMsg "f1")), [("feeder:f1", JValue.obj [])]) ∧
    register_feeder "f1" "N2" "L2" .null
        (register_feeder "f1" "N1" "L1" .null Store.empty).2 =
      (.ok (.err (existsMsg "f1")),
       (register_feeder "f1" "N1" "L1" .null Store.empty).2) ∧
    (register_feeder "f1" "N1" "L1" .null Store.empty).2.countKey
      (get_feeder_memory_key "f1") = 1 := by
  refine ⟨claim2_duplicate_rejected_no_write.1 _ "f1" "N2" "L2" .null rfl, ?_, ?_⟩
  · exact (claim2_duplicate_rejected_no_write.2 Store.empty "f1" "N1" "L1"
      "N2" "L2" .null .null rfl).1
  · exact (claim2_duplicate_rejected_no_write.2 Store.empty "f1" "N1" "L1"
      "N2" "L2" .null .null rfl).2

/-- Claim C3: on any store in which `feeder:<id>` is absent, both
`get_feeder_health` and `get_feeder_alerts` return the error result with
message `Feeder ID <id> not found.` (single-quoted in the source),
whatever else the store holds. -/
theorem claim3_not_found_errors (st : Store) (fid : String)
    (h : st.lookup (get_feeder_memory_key fid) = none) :
    get_feeder_health fid st = (.ok (.err (notFoundMsg fid)), st) ∧
    get_feeder_alerts fid st = (.ok (.err (notFoundMsg fid)), st) := by
  have hk : st.hasKey (get_feeder_memory_key fid) = false := by
    simp [Store.hasKey, h]
  constructor
  · unfold get_feeder_health
    simp [hk]
  · unfold get_feeder_alerts
    simp [hk]

/-- Witness for C3: an unregistered id against a store that is not empty. -/
theorem claim3_witness :
    get_feeder_health "unknown" [("feeder:f1", JValue.obj [])] =
      (.ok (.err (notFoundMsg "unknown")), [("feeder:f1", JValue.obj [])]) ∧
    get_feeder_alerts "unknown" [("feeder:f1", JValue.obj [])] =
      (.ok (.err (notFoundMsg "unknown")), [("feeder:f1", JValue.obj [])]) :=
  claim3_not_found_errors [("feeder:f1", JValue.obj [])] "unknown" rfl

/-- Claim C9: the three read operations never change the store, on success
or on error. -/
theorem claim9_reads_leave_store_unchanged (st : Store) (fid : String) :
    (get_registered_feeders st).2 = st ∧
    (get_feeder_health fid st).2 = st ∧
    (get_feeder_alerts fid st).2 = st :=
  ⟨get_registered_feeders_snd st, get_feeder_health_snd st fid,
    get_feeder_alerts_snd st fid⟩

/-- Claim C10: a successful registration changes at most the keys
`feeder:<id>` and `all_feeders`; every other key keeps its value. -/
theorem claim10_register_frame (st : Store) (fid n l : String) (c r : JValue)
    (hs : (register_feeder fid n l c st).1 = .ok (.ok r)) :
    ∀ k, k ≠ get_feeder_memory_key fid → k ≠ get_all_feeders_key →
      (register_feeder fid n l c st).2.lookup k = st.lookup k := by
  intro k hk1 hk2
  by_cases h : st.hasKey (get_feeder_memory_key fid) = true
  · rw [register_feeder_duplicate st fid n l c h]
  · rcases register_feeder_cases st fid n l c
      (by simpa using h) with ⟨_, heq⟩ | ⟨ids, _, heq⟩ | ⟨_, heq⟩ <;>
      rw [heq]
    · rw [Store.lookup_set_ne _ _ hk2, Store.lookup_set_ne _ _ hk1]
    · rw [Store.lookup_set_ne _ _ hk2, Store.lookup_set_ne _ _ hk1]
    · rw [heq] at hs
      exact absurd hs (by simp)

/-- Witness for C10: registering `f1` into a store holding an unrelated
key leaves that key intact. -/
theorem claim10_witness :
    (register_feeder "f1" "N" "L" .null
        [("alerts:f2", JValue.arr [])]).2.lookup "alerts:f2" =
      Store.lookup [("alerts:f2", JValue.arr [])] "alerts:f2" :=
  claim10_register_frame [("alerts:f2", JValue.arr [])] "f1" "N" "L" .null
    (Feeder.to_dict ⟨.str "f1", .str "N", .str "L", .null⟩) rfl
    "alerts:f2" (by decide) (by decide)

/-- Claim C7: `Feeder.from_dict` raises a `KeyError` when `feeder_id`,
`name` or `location` is missing, defaults `configuration` to `None` when
only that key is missing, and `to_dict` followed by `from_dict` rebuilds
the feeder with the same four field values. -/
theorem claim7_codec :
    (∀ d : List (String × JValue),
      (Store.lookup d "feeder_id" = none ∨ Store.lookup d "name" = none ∨
        Store.lookup d "location" = none) →
      ∃ k, Feeder.from_dict (.obj d) = .error (.keyError k)) ∧
    (∀ (d : List (String × JValue)) (fid nm loc : JValue),
      Store.lookup d "feeder_id" = some fid →
      Store.lookup d "name" = some nm →
      Store.lookup d "location" = some loc →
      Store.lookup d "configuration" = none →
      Feeder.from_dict (.obj d) = .ok ⟨fid, nm, loc, .null⟩) ∧
    (∀ f : Feeder, Feeder.from_dict f.to_dict = .ok f) := by
  refine ⟨?_, ?_, fun f => from_dict_to_dict f⟩
  · intro d hmiss
    cases h1 : Store.lookup d "feeder_id" with
    | none => exact ⟨"feeder_id", by simp [Feeder.from_dict, h1]⟩
    | some fid =>
      cases h2 : Store.lookup d "name" with
      | none => exact ⟨"name", by simp [Feeder.from_dict, h1, h2]⟩
      | some nm =>
        cases h3 : Store.lookup d "location" with
        | none => exact ⟨"location", by simp [Feeder.from_dict, h1, h2, h3]⟩
        | some loc =>
          rw [h1, h2, h3] at hmiss
          simp at hmiss
  · intro d fid nm loc h1 h2 h3 h4
    simp [Feeder.from_dict, h1, h2, h3, h4]

/-- Witness for C7: an empty record, a record missing only
`configuration`, and a full round-trip, all at concrete values. -/
theorem claim7_witness :
    (∃ k, Feeder.from_dict (.obj []) = .error (.keyError k)) ∧
    Feeder.from_dict (.obj [("feeder_id", .str "f1"), ("name", .str "N"),
        ("location", .str "L")]) = .ok ⟨.str "f1", .str "N", .str "L", .null⟩ ∧
    Feeder.from_dict (Feeder.to_dict
        ⟨.str "f1", .str "N", .str "L", .obj [("rate", .int 5)]⟩) =
      .ok ⟨.str "f1", .str "N", .str "L", .obj [("rate", .int 5)]⟩ :=
  ⟨claim7_codec.1 [] (Or.inl rfl),
   claim7_codec.2.1 _ (.str "f1") (.str "N") (.str "L") rfl rfl rfl rfl,
   claim7_codec.2.2 ⟨.str "f1", .str "N", .str "L", .obj [("rate", .int 5)]⟩⟩

/-- Counterexample to C4 as stated: a store (a legal JSON object, hence a
reachable `_load_memory` result) whose `all_feeders` key holds the number
1.  The source then runs `for feeder_id in 1`, which raises `TypeError`,
so `get_registered_feeders` does not return a success result. -/
theorem claim4_counterexample :
    (get_registered_feeders [("all_feeders", JValue.int 1)]).1 =
      .error .typeError := rfl

/-- Claim C4 (amended): on every store whose `all_feeders` value fits the
data model (absent, `null`, or a list of entries whose records are falsy or
decodable), `get_registered_feeders` returns a success result; on a store
without the `all_feeders` key — in particular the freshly initialized empty
store — it returns success with the empty list. -/
theorem claim4_list_always_succeeds :
    (∀ st : Store, wfStore st = true →
      ∃ fs, (get_registered_feeders st).1 = .ok (.ok (.arr fs))) ∧
    (∀ st : Store, st.lookup get_all_feeders_key = none →
      get_registered_feeders st = (.ok (.ok (.arr [])), st)) ∧
    get_registered_feeders Store.empty = (.ok (.ok (.arr [])), Store.empty) := by
  refine ⟨?_, ?_, rfl⟩
  · intro st hwf
    cases hv : st.pyGet get_all_feeders_key with
    | null => exact ⟨[], by simp [get_registered_feeders, hv]⟩
    | arr ids =>
      rw [wfStore, hv] at hwf
      have hgood : ∀ v ∈ ids, goodEntry st v = true := by
        simpa [List.all_eq_true] using hwf
      exact ⟨ids.filterMap (entryOut st),
        by simp [get_registered_feeders, hv, pyIter,
          listLoop_eq_filterMap st ids hgood]⟩
    | bool b => rw [wfStore, hv] at hwf; exact absurd hwf (by simp)
    | str s => rw [wfStore, hv] at hwf; exact absurd hwf (by simp)
    | int n => rw [wfStore, hv] at hwf; exact absurd hwf (by simp)
    | obj kvs => rw [wfStore, hv] at hwf; exact absurd hwf (by simp)
  · intro st h
    have hv : st.pyGet get_all_feeders_key = .null := by
      simp [Store.pyGet, h]
    simp [get_registered_feeders, hv]

/-- Witness for C4 (amended): a well-formed one-feeder store and a store
without the index key. -/
theorem claim4_witness :
    (∃ fs, (get_registered_feeders
      [("all_feeders", JValue.arr [.str "f1"]),
       ("feeder:f1", Feeder.to_dict ⟨.str "f1", .str "N", .str "L", .null⟩)]).1 =
        .ok (.ok (.arr fs))) ∧
    get_registered_feeders [("feeder:f1", JValue.obj [])] =
      (.ok (.ok (.arr [])), [("feeder:f1", JValue.obj [])]) :=
  ⟨claim4_list_always_succeeds.1 _ rfl,
   claim4_list_always_succeeds.2.1 [("feeder:f1", JValue.obj [])] rfl⟩

/-- Counterexample to C5 as stated: the index holds the dangling id `dang`
(no `feeder:dang` key anywhere), yet `get_registered_feeders` does not
return success, because the sibling entry `feeder:good` holds the truthy
number 5 and `5["feeder_id"]` raises `TypeError`. -/
theorem claim5_counterexample :
    (get_registered_feeders
      [("all_feeders", JValue.arr [.str "good", .str "dang"]),
       ("feeder:good", JValue.int 5)]).1 = .error .typeError := rfl

/-- Claim C5 (amended): on a well-formed store whose index holds an id with
no `feeder:<id>` record, `get_registered_feeders` still succeeds, its
report being the index entries' contributions in order, and the dangling
id contributes nothing. -/
theorem claim5_dangling_id_skipped (st : Store) (ids : List JValue)
    (d : String) (hwf : wfStore st = true)
    (hids : st.lookup get_all_feeders_key = some (.arr ids))
    (_hmem : JValue.str d ∈ ids)
    (hdangling : st.lookup (get_feeder_memory_key d) = none) :
    entryOut st (.str d) = none ∧
    (get_registered_feeders st).1 =
      .ok (.ok (.arr (ids.filterMap (entryOut st)))) := by
  have hv : st.pyGet get_all_feeders_key = .arr ids := by
    simp [Store.pyGet, hids]
  rw [wfStore, hv] at hwf
  have hgood : ∀ v ∈ ids, goodEntry st v = true := by
    simpa [List.all_eq_true] using hwf
  constructor
  · simp [entryOut, pyStr, Store.pyGet, hdangling, truthy]
  · simp [get_registered_feeders, hv, pyIter,
      listLoop_eq_filterMap st ids hgood]

/-- Witness for C5 (amended) at a concrete store with the dangling id
`ghost`. -/
theorem claim5_witness :
    entryOut
      [("all_feeders", JValue.arr [.str "f1", .str "ghost"]),
       ("feeder:f1", Feeder.to_dict ⟨.str "f1", .str "N", .str "L", .null⟩)]
      (.str "ghost") = none ∧
    (get_registered_feeders
      [("all_feeders", JValue.arr [.str "f1", .str "ghost"]),
       ("feeder:f1", Feeder.to_dict ⟨.str "f1", .str "N", .str "L", .null⟩)]).1 =
      .ok (.ok (.arr (List.filterMap (entryOut
        [("all_feeders", JValue.arr [.str "f1", .str "ghost"]),
         ("feeder:f1", Feeder.to_dict ⟨.str "f1", .str "N", .str "L", .null⟩)])
        [.str "f1", .str "ghost"]))) :=
  claim5_dangling_id_skipped _ [.str "f1", .str "ghost"] "ghost" rfl rfl
    (by simp) rfl

/-- Claim C8: when the index is a list whose present records are exactly
stored feeder dictionaries, the report of `get_registered_feeders` is the
index ids in order, filtered to those with a record, each mapped to its
stored record. -/
theorem claim8_order_preserved (st : Store) (ids : List JValue)
    (hids : st.lookup get_all_feeders_key = some (.arr ids))
    (hcanon : ∀ v ∈ ids,
      st.lookup (get_feeder_memory_key (pyStr v)) = none ∨
      ∃ f : Feeder,
        st.lookup (get_feeder_memory_key (pyStr v)) = some f.to_dict) :
    (get_registered_feeders st).1 =
      .ok (.ok (.arr (ids.filterMap
        (fun v => st.lookup (get_feeder_memory_key (pyStr v)))))) := by
  have hv : st.pyGet get_all_feeders_key = .arr ids := by
    simp [Store.pyGet, hids]
  have hgood : ∀ v ∈ ids, goodEntry st v = true := by
    intro v hvmem
    rcases hcanon v hvmem with h | ⟨f, h⟩
    · simp [goodEntry, Store.pyGet, h, truthy]
    · simp [goodEntry, Store.pyGet, h, truthy_to_dict, from_dict_to_dict]
  have hpoint : ∀ v ∈ ids,
      entryOut st v = st.lookup (get_feeder_memory_key (pyStr v)) := by
    intro v hvmem
    rcases hcanon v hvmem with h | ⟨f, h⟩
    · simp [entryOut, Store.pyGet, h, truthy]
    · simp [entryOut, Store.pyGet, h, truthy_to_dict, from_dict_to_dict]
  simp [get_registered_feeders, hv, pyIter,
    listLoop_eq_filterMap st ids hgood, List.filterMap_congr hpoint]

/-- Witness for C8: a two-feeder store listed in index order. -/
theorem claim8_witness :
    (get_registered_feeders
      [("all_feeders", JValue.arr [.str "b", .str "a"]),
       ("feeder:a", Feeder.to_dict ⟨.str "a", .str "NA", .str "LA", .null⟩),
       ("feeder:b", Feeder.to_dict ⟨.str "b", .str "NB", .str "LB", .null⟩)]).1 =
      .ok (.ok (.arr (List.filterMap
        (fun v => Store.lookup
          [("all_feeders", JValue.arr [.str "b", .str "a"]),
           ("feeder:a", Feeder.to_dict ⟨.str "a", .str "NA", .str "LA", .null⟩),
           ("feeder:b", Feeder.to_dict ⟨.str "b", .str "NB", .str "LB", .null⟩)]
          (get_feeder_memory_key (pyStr v)))
        [.str "b", .str "a"]))) := by
  refine claim8_order_preserved _ [.str "b", .str "a"] rfl ?_
  intro v hv
  rcases List.mem_pair.mp hv with h | h <;> subst h
  · exact Or.inr ⟨⟨.str "b", .str "NB", .str "LB", .null⟩, rfl⟩
  · exact Or.inr ⟨⟨.str "a", .str "NA", .str "LA", .null⟩, rfl⟩

/-- Entries of the old index stay processable after a registration writes
the fresh record and rewrites the index. -/
theorem goodEntry_after_register (st : Store) (fid : String) (f : Feeder)
    (x v : JValue) (hgood : goodEntry st v = true) :
    goodEntry ((st.set (get_feeder_memory_key fid) f.to_dict).set
      get_all_feeders_key x) v = true := by
  by_cases hfk : get_feeder_memory_key (pyStr v) = get_feeder_memory_key fid
  · have hpg : ((st.set (get_feeder_memory_key fid) f.to_dict).set
        get_all_feeders_key x).pyGet (get_feeder_memory_key (pyStr v)) =
        f.to_dict := by
      rw [Store.pyGet_set_ne _ _ (feeder_key_ne_all _), hfk]
      exact Store.pyGet_set_self _ _ _
    simp [goodEntry, hpg, truthy_to_dict, from_dict_to_dict]
  · have hpg : ((st.set (get_feeder_memory_key fid) f.to_dict).set
        get_all_feeders_key x).pyGet (get_feeder_memory_key (pyStr v)) =
        st.pyGet (get_feeder_memory_key (pyStr v)) := by
      rw [Store.pyGet_set_ne _ _ (feeder_key_ne_all _),
        Store.pyGet_set_ne _ _ hfk]
    rw [goodEntry_congr hpg]
    exact hgood

/-- Listing a store whose index ends in a freshly registered id whose
record is `f.to_dict` succeeds and reports that record. -/
theorem listing_with_new_entry (st2 : Store) (fid : String) (f : Feeder)
    (ids0 : List JValue)
    (hpy2 : st2.pyGet get_all_feeders_key = .arr (ids0 ++ [.str fid]))
    (hrec : st2.pyGet (get_feeder_memory_key fid) = f.to_dict)
    (hgood0 : ∀ v ∈ ids0, goodEntry st2 v = true) :
    (get_registered_feeders st2).1 =
      .ok (.ok (.arr ((ids0 ++ [JValue.str fid]).filterMap (entryOut st2)))) ∧
    f.to_dict ∈ (ids0 ++ [JValue.str fid]).filterMap (entryOut st2) := by
  have hgood2 : ∀ v ∈ ids0 ++ [JValue.str fid], goodEntry st2 v = true := by
    intro v hv
    rcases List.mem_append.mp hv with hv0 | hv1
    · exact hgood0 v hv0
    · have hv1' : v = .str fid := by simpa using hv1
      subst hv1'
      simp [goodEntry, pyStr, hrec, truthy_to_dict, from_dict_to_dict]
  constructor
  · simp [get_registered_feeders, hpy2, pyIter,
      listLoop_eq_filterMap st2 _ hgood2]
  · refine List.mem_filterMap.mpr
      ⟨JValue.str fid, List.mem_append_right _ (by simp), ?_⟩
    simp [entryOut, pyStr, hrec, truthy_to_dict, from_dict_to_dict]

/-- Claim C1: registering a fresh feeder on a well-formed store succeeds
with its record as report, and a subsequent listing succeeds with a report
containing a record carrying the same four field values unchanged. -/
theorem claim1_register_then_list_roundtrip (st : Store) (fid n l : String)
    (c : JValue) (hfresh : st.hasKey (get_feeder_memory_key fid) = false)
    (hwf : wfStore st = true) :
    (register_feeder fid n l c st).1 =
      .ok (.ok (.obj [("feeder_id", .str fid), ("name", .str n),
        ("location", .str l), ("configuration", c)])) ∧
    ∃ fs, (get_registered_feeders (register_feeder fid n l c st).2).1 =
        .ok (.ok (.arr fs)) ∧
      JValue.obj [("feeder_id", .str fid), ("name", .str n),
        ("location", .str l), ("configuration", c)] ∈ fs := by
  rcases register_feeder_cases st fid n l c hfresh with
    ⟨hv, heq⟩ | ⟨ids0, hv, heq⟩ | ⟨⟨hv1, hv2⟩, heq⟩
  · have h2 := listing_with_new_entry
      ((st.set (get_feeder_memory_key fid)
        (Feeder.to_dict ⟨.str fid, .str n, .str l, c⟩)).set
        get_all_feeders_key (.arr [.str fid]))
      fid ⟨.str fid, .str n, .str l, c⟩ []
      (Store.pyGet_set_self _ _ _)
      (by rw [Store.pyGet_set_ne _ _ (feeder_key_ne_all fid)]
          exact Store.pyGet_set_self _ _ _)
      (fun v hv => absurd hv (List.not_mem_nil v))
    rw [heq]
    exact ⟨rfl, _, h2.1, h2.2⟩
  · have hwf2 : ids0.all (goodEntry st) = true := by
      have := hwf
      rw [wfStore, hv] at this
      exact this
    have hgood : ∀ v ∈ ids0, goodEntry st v = true := by
      simpa [List.all_eq_true] using hwf2
    have h2 := listing_with_new_entry
      ((st.set (get_feeder_memory_key fid)
        (Feeder.to_dict ⟨.str fid, .str n, .str l, c⟩)).set
        get_all_feeders_key (.arr (ids0 ++ [.str fid])))
      fid ⟨.str fid, .str n, .str l, c⟩ ids0
      (Store.pyGet_set_self _ _ _)
      (by rw [Store.pyGet_set_ne _ _ (feeder_key_ne_all fid)]
          exact Store.pyGet_set_self _ _ _)
      (fun v hv => goodEntry_after_register st fid _ _ v (hgood v hv))
    rw [heq]
    exact ⟨rfl, _, h2.1, h2.2⟩
  · exfalso
    cases hvv : st.pyGet get_all_feeders_key with
    | null => exact hv1 hvv
    | arr ids => exact hv2 ids hvv
    | bool b => rw [wfStore, hvv] at hwf; exact absurd hwf (by simp)
    | str s => rw [wfStore, hvv] at hwf; exact absurd hwf (by simp)
    | int m => rw [wfStore, hvv] at hwf; exact absurd hwf (by simp)
    | obj kvs => rw [wfStore, hvv] at hwf; exact absurd hwf (by simp)

/-- Witness for C1: registering `f1` with a configuration into the empty
store and then listing. -/
theorem claim1_witness :
    (register_feeder "f1" "Feeder One" "Loc A"
        (.obj [("rate", .int 5)]) Store.empty).1 =
      .ok (.ok (.obj [("feeder_id", .str "f1"), ("name", .str "Feeder One"),
        ("location", .str "Loc A"),
        ("configuration", .obj [("rate", .int 5)])])) ∧
    ∃ fs, (get_registered_feeders (register_feeder "f1" "Feeder One" "Loc A"
        (.obj [("rate", .int 5)]) Store.empty).2).1 = .ok (.ok (.arr fs)) ∧
      JValue.obj [("feeder_id", .str "f1"), ("name", .str "Feeder One"),
        ("location", .str "Loc A"),
        ("configuration", .obj [("rate", .int 5)])] ∈ fs :=
  claim1_register_then_list_roundtrip Store.empty "f1" "Feeder One" "Loc A"
    (.obj [("rate", .int 5)]) rfl rfl

/-- The store states reachable from the freshly initialized empty store by
the four registry operations. -/
inductive Reachable : Store → Prop where
  | empty : Reachable Store.empty
  | register (st : Store) (fid n l : String) (c : JValue) :
      Reachable st → Reachable (register_feeder fid n l c st).2
  | listFeeders (st : Store) :
      Reachable st → Reachable (get_registered_feeders st).2
  | health (st : Store) (fid : String) :
      Reachable st → Reachable (get_feeder_health fid st).2
  | alerts (st : Store) (fid : String) :
      Reachable st → Reachable (get_feeder_alerts fid st).2

/-- The index invariant maintained by the operations: whenever
`all_feeders` holds a list, the list has no duplicates and each entry is
the id string of a present `feeder:<id>` key. -/
def IndexInv (st : Store) : Prop :=
  ∀ ids, st.lookup get_all_feeders_key = some (.arr ids) →
    ids.Nodup ∧ ∀ v ∈ ids, ∃ s, v = JValue.str s ∧
      st.hasKey (get_feeder_memory_key s) = true

theorem reachable_indexInv {st : Store} (h : Reachable st) : IndexInv st := by
  induction h with
  | empty =>
    intro ids hl
    simp [Store.empty, Store.lookup] at hl
  | listFeeders st _ ih => rw [get_registered_feeders_snd st]; exact ih
  | health st fid _ ih => rw [get_feeder_health_snd st fid]; exact ih
  | alerts st fid _ ih => rw [get_feeder_alerts_snd st fid]; exact ih
  | register st fid n l c _ ih =>
    by_cases hk : st.hasKey (get_feeder_memory_key fid) = true
    · rw [register_feeder_duplicate st fid n l c hk]
      exact ih
    · have hk' : st.hasKey (get_feeder_memory_key fid) = false := by
        simpa using hk
      have hhas2 : ∀ x : JValue,
          ((st.set (get_feeder_memory_key fid)
            (Feeder.to_dict ⟨.str fid, .str n, .str l, c⟩)).set
            get_all_feeders_key x).hasKey (get_feeder_memory_key fid)
            = true := by
        intro x
        rw [Store.hasKey_set, if_neg (feeder_key_ne_all fid)]
        simp [Store.hasKey, Store.lookup_set_self]
      rcases register_feeder_cases st fid n l c hk' with
        ⟨hv, heq⟩ | ⟨ids0, hv, heq⟩ | ⟨⟨hv1, hv2⟩, heq⟩ <;> rw [heq]
      · intro ids hl
        rw [Store.lookup_set_self] at hl
        have hids : ids = [JValue.str fid] := by
          injection hl with h2
          injection h2 with h3
          exact h3.symm
        subst hids
        refine ⟨List.nodup_singleton _, ?_⟩
        intro v hvmem
        have hv' : v = .str fid := by simpa using hvmem
        subst hv'
        exact ⟨fid, rfl, hhas2 _⟩
      · intro ids hl
        rw [Store.lookup_set_self] at hl
        have hids : ids = ids0 ++ [JValue.str fid] := by
          injection hl with h2
          injection h2 with h3
          exact h3.symm
        subst hids
        obtain ⟨hnodup0, hmem0⟩ := ih ids0 (lookup_of_pyGet_arr hv)
        constructor
        · rw [List.nodup_append]
          refine ⟨hnodup0, List.nodup_singleton _, ?_⟩
          intro a ha hb
          have hab : a = .str fid := by simpa using hb
          subst hab
          obtain ⟨s, hs, hkey⟩ := hmem0 _ ha
          have hsfid : s = fid := by
            injection hs with h4
            exact h4.symm
          subst hsfid
          rw [hkey] at hk'
          exact Bool.noConfusion hk'
        · intro v hvmem
          rcases List.mem_append.mp hvmem with hv0 | hv1
          · obtain ⟨s, hs, hkey⟩ := hmem0 _ hv0
            refine ⟨s, hs, ?_⟩
            rw [Store.hasKey_set, if_neg (feeder_key_ne_all s),
              Store.hasKey_set]
            by_cases hfk : get_feeder_memory_key s = get_feeder_memory_key fid
            · rw [if_pos hfk]
            · rw [if_neg hfk]
              exact hkey
          · have hv' : v = .str fid := by simpa using hv1
            subst hv'
            exact ⟨fid, rfl, hhas2 _⟩
      · intro ids hl
        rw [Store.lookup_set_ne _ _ (Ne.symm (feeder_key_ne_all fid))] at hl
        have : st.pyGet get_all_feeders_key = .arr ids := by
          simp [Store.pyGet, hl]
        exact absurd this (hv2 ids)

/-- Claim C6: in every store reachable from the empty store through the
four registry operations, the `all_feeders` index holds no duplicate ids,
because `register_feeder` rejects on the `feeder:<id>` key before
appending. -/
theorem claim6_index_nodup {st : Store} (h : Reachable st) :
    ∀ ids, st.lookup get_all_feeders_key = some (.arr ids) → ids.Nodup :=
  fun ids hl => (reachable_indexInv h ids hl).1

/-- Witness for C6: the store after one registration from empty. -/
theorem claim6_witness : ([JValue.str "f1"] : List JValue).Nodup :=
  claim6_index_nodup
    (Reachable.register Store.empty "f1" "N" "L" .null Reachable.empty)
    [JValue.str "f1"] rfl

end GridWatch
